import Mathlib

/-!
Shallow embedding of the value-and-type subsystem of the cel-cpp repository,
together with proofs settling the frozen claims about its specification.

Each definition mirrors one function or data structure of the C++ source; the
file reference is given in the doc comment.  Machine integers are modelled as
`Int`/`Nat`, statuses as an explicit `StatusCode`, fallible code as `Except`
or `Option`.
-/

namespace CelCpp

/-- Status codes of `absl::Status`, as used throughout the source
(`absl::StatusCode`).  Only the codes the source mentions are listed. -/
inductive StatusCode where
  | ok
  | invalidArgument
  | notFound
  | outOfRange
  | unimplemented
  | internal
  | unavailable
  | failedPrecondition
  | unknown
  deriving DecidableEq, Repr

/-- The `CelError` payload of a legacy error value: an `absl::Status` carrying
a code and a message (`eval/public/cel_value.h`). -/
structure CelError where
  code : StatusCode
  message : String
  deriving DecidableEq, Repr

/-- Legacy `CelValue` (`eval/public/cel_value.h`, implementation in
`src/unnamed/part_004`): a discriminated union.  Only the alternatives the
claims exercise are carried; `durationV` holds the duration in integer
nanoseconds (the granularity of every bound involved). -/
inductive CelValue where
  | nullV
  | boolV (b : Bool)
  | int64V (i : Int)
  | uint64V (u : Nat)
  | durationV (ns : Int)
  | timestampV (ns : Int)
  | errorV (e : CelError)
  deriving DecidableEq, Repr

/-- Exclusive upper bound for valid durations, in nanoseconds:
`kDurationHigh = absl::Seconds(315576000001)` (`src/unnamed/part_004`,
line 42). -/
def kDurationHighNs : Int := 315576000001 * 1000000000

/-- Exclusive lower bound for valid durations, in nanoseconds:
`kDurationLow = absl::Seconds(-315576000001)` (`src/unnamed/part_004`,
line 43). -/
def kDurationLowNs : Int := -315576000001 * 1000000000

/-- The singleton status returned for out-of-bounds durations:
`DurationOverflowError()` constructs
`absl::Status(absl::StatusCode::kInvalidArgument, "Duration is out of range")`
(`src/unnamed/part_004`, lines 45-49). -/
def DurationOverflowError : CelError :=
  { code := StatusCode.invalidArgument, message := "Duration is out of range" }

/-- `CelValue::CreateDuration` (`src/unnamed/part_004`, lines 120-125):
rejects `value >= kDurationHigh || value <= kDurationLow`, otherwise wraps the
duration. -/
def CelValue.CreateDuration (ns : Int) : CelValue :=
  if ns ≥ kDurationHighNs ∨ ns ≤ kDurationLowNs then
    CelValue.errorV DurationOverflowError
  else
    CelValue.durationV ns

/-- One base64-encoded response line printed by the conformance pipe loop,
tagged by the command that produced it (`RunServer`,
`src/base/internal/memory_manager.h`, lines 801-872). -/
inductive PipeResponse where
  | parseResp
  | evalResp
  | pingResp
  deriving DecidableEq, Repr

/-- One iteration of the conformance pipe loop
(`src/base/internal/memory_manager.h`, lines 818-869), given the command line
read and the outcome of the remaining loop: `parse`, `eval` and `ping` each
print one response line and continue; an empty command returns exit code 0;
any other command returns exit code 2 without printing. -/
def runPipeIteration (cmd : String) (next : List PipeResponse × Nat) :
    List PipeResponse × Nat :=
  if cmd = "parse" then (PipeResponse.parseResp :: next.1, next.2)
  else if cmd = "eval" then (PipeResponse.evalResp :: next.1, next.2)
  else if cmd = "ping" then (PipeResponse.pingResp :: next.1, next.2)
  else if cmd = "" then ([], 0)
  else ([], 2)

/-- The `while (true)` pipe loop of `RunServer`
(`src/base/internal/memory_manager.h`, lines 818-869).  Each iteration reads
a command line and a request line (`std::getline` yields the empty string at
end of input, so a missing command reads as `""` and terminates with exit
code 0).  The result is the printed response lines and the exit code. -/
def runLoop : List String → List PipeResponse × Nat
  | [] => ([], 0)
  | [cmd] => runPipeIteration cmd ([], 0)
  | cmd :: _ :: rest => runPipeIteration cmd (runLoop rest)

/-- `RunServer` (`src/base/internal/memory_manager.h`, lines 801-872): on
startup failure it returns 1 before entering the loop; otherwise it runs the
pipe loop over the input lines. -/
def RunServer (startupOk : Bool) (lines : List String) :
    List PipeResponse × Nat :=
  if startupOk then runLoop lines else ([], 1)

/-- `cel::ValueKind` tags of the modern value model (`common/value_kind.h`,
as used by `src/unnamed/part_002`). -/
inductive ValueKind where
  | kNull
  | kBool
  | kInt
  | kUint
  | kDouble
  | kString
  | kBytes
  | kStruct
  | kDuration
  | kTimestamp
  | kList
  | kMap
  | kUnknown
  | kType
  | kError
  | kOpaque
  deriving DecidableEq, Repr

/-- The alternatives of `common_internal::ValueVariant`, the variant inside
`cel::Value` (`src/unnamed/part_002`).  `monostate` is the distinguished
invalid state a default-constructed or moved-from `Value` holds.  Strings and
maps carry the payloads the claims need; maps are association lists from
string keys to string payloads, standing in for `LegacyMapValue`. -/
inductive ValueVariant where
  | monostate
  | nullV
  | boolV (b : Bool)
  | intV (i : Int)
  | uintV (u : Nat)
  | stringV (bytes : List Nat)
  | errorV (e : CelError)
  | unknownV
  | mapV (entries : List (List Nat × List Nat))
  deriving DecidableEq, Repr

/-- The kind of a non-monostate alternative, as reported by each
alternative's own `kind()` accessor. -/
def ValueVariant.alternativeKind : ValueVariant → ValueKind
  | ValueVariant.monostate => ValueKind.kError
  | ValueVariant.nullV => ValueKind.kNull
  | ValueVariant.boolV _ => ValueKind.kBool
  | ValueVariant.intV _ => ValueKind.kInt
  | ValueVariant.uintV _ => ValueKind.kUint
  | ValueVariant.stringV _ => ValueKind.kString
  | ValueVariant.errorV _ => ValueKind.kError
  | ValueVariant.unknownV => ValueKind.kUnknown
  | ValueVariant.mapV _ => ValueKind.kMap

/-- `Value::IsValid` (`src/unnamed/part_002`, lines 452-454): a `Value` is
valid precisely when its variant does not hold `absl::monostate`. -/
def Value.IsValid : ValueVariant → Bool
  | ValueVariant.monostate => false
  | _ => true

/-- `Value::kind` (`src/unnamed/part_002`, lines 200-215): visits the
variant; on the `absl::monostate` alternative, optimized builds return
`ValueKind::kError`; otherwise the alternative's own kind. -/
def Value.kind (v : ValueVariant) : ValueKind :=
  match v with
  | ValueVariant.monostate => ValueKind.kError
  | alt => alt.alternativeKind

/-- `Value::Value(Value&&)` (`src/unnamed/part_002`, lines 92-95): the new
value takes the source's variant and the source's variant is re-emplaced with
`absl::monostate`.  Returns (constructed value, moved-from source). -/
def Value.moveConstruct (other : ValueVariant) : ValueVariant × ValueVariant :=
  (other, ValueVariant.monostate)

/-- `Value::operator=(Value&&)` (`src/unnamed/part_002`, lines 97-104): the
destination takes the source's variant and the source is re-emplaced with
`absl::monostate`.  Returns (assigned-to value, moved-from source). -/
def Value.moveAssign (_self other : ValueVariant) :
    ValueVariant × ValueVariant :=
  (other, ValueVariant.monostate)

/-- Modelled from the spec: `MapValueEqual` (in `common/values/map_value.cc`,
not under `src/`) compares two maps as unordered sets of pairs (spec section
4.4.2).  Only reachable in `LegacyMapValue.Equal` when both operands are
maps; the claims never evaluate it on distinct maps. -/
def mapValueEqualSpec (lhs rhs : List (List Nat × List Nat)) : Bool :=
  decide (lhs.length = rhs.length) &&
    lhs.all (fun p => decide (p ∈ rhs)) && rhs.all (fun p => decide (p ∈ lhs))

/-- `StringValue::Equal` (`src/common/values/string_value.cc`, lines 88-99):
if the other operand holds a string, compare contents and return a bool
value; for every other operand — errors and unknowns included — return
`BoolValueView{false}`. -/
def StringValue.Equal (self : List Nat) (other : ValueVariant) : ValueVariant :=
  match other with
  | ValueVariant.stringV t => ValueVariant.boolV (self = t)
  | _ => ValueVariant.boolV false

/-- `LegacyMapValue::Equal` (`src/common/values/struct_value_interface.h`,
lines 275-282): if the other operand holds a map, defer to `MapValueEqual`;
for every other operand — errors and unknowns included — return
`BoolValueView{false}`. -/
def LegacyMapValue.Equal (self : List (List Nat × List Nat))
    (other : ValueVariant) : ValueVariant :=
  match other with
  | ValueVariant.mapV m => ValueVariant.boolV (mapValueEqualSpec self m)
  | _ => ValueVariant.boolV false

/-- The type URLs whose `AnyToJson` conversion the unit test
(`src/unnamed/part_003`, lines 77-156) pins as returning `UNIMPLEMENTED`:
the recognized well-known types. -/
def anyToJsonWellKnownUrls : List String :=
  ["type.googleapis.com/google.protobuf.Value",
   "type.googleapis.com/google.protobuf.ListValue",
   "type.googleapis.com/google.protobuf.Struct",
   "type.googleapis.com/google.protobuf.BoolValue",
   "type.googleapis.com/google.protobuf.BytesValue",
   "type.googleapis.com/google.protobuf.DoubleValue",
   "type.googleapis.com/google.protobuf.FloatValue",
   "type.googleapis.com/google.protobuf.Int32Value",
   "type.googleapis.com/google.protobuf.Int64Value",
   "type.googleapis.com/google.protobuf.UInt32Value",
   "type.googleapis.com/google.protobuf.UInt64Value",
   "type.googleapis.com/google.protobuf.StringValue",
   "type.googleapis.com/google.protobuf.Duration",
   "type.googleapis.com/google.protobuf.Timestamp"]

/-- Modelled from the spec: the status code of
`AnyToJson(value_factory, type_url, bytes)` — its body
(`extensions/protobuf/internal/any.cc`) is not under `src/`; its observable
status behaviour is fixed by its unit test (`src/unnamed/part_003`, lines
77-156: every recognized `google.protobuf` well-known type URL yields
`UNIMPLEMENTED`, the unrecognized URL yields `NOT_FOUND`) and by the
`TypeReflector::DeserializeValue` contract ("Returns `NOT_FOUND` if
`type_url` is unrecognized", `src/common/type_reflector.h`, lines 62-66). -/
def anyToJsonStatusCode (typeUrl : String) : StatusCode :=
  if typeUrl ∈ anyToJsonWellKnownUrls then StatusCode.unimplemented
  else StatusCode.notFound

/-- Interning state of a `TypeFactory` (`src/base/internal/memory_manager.h`,
lines 441-552).  Modelled from the spec: the bodies of `CreateListType`,
`CreateMapType` and `CreateOptionalType` (`base/type_factory.cc`) are not
under `src/`; only the class declaration with its three caches is.  Per the
spec (section 4.5) the factory "interns `list<E>`, `map<K,V>`, `optional<E>`
under a mutex.  Cache keys are the inner type handles (identity-comparable)".
Type handles are modelled as `Nat` identities; `next` is the next fresh
handle the memory manager would produce; the three association lists are the
`list_types_`, `map_types_` and `optional_types_` caches. -/
structure TypeFactoryState where
  next : Nat
  listTypes : List (Nat × Nat)
  mapTypes : List ((Nat × Nat) × Nat)
  optionalTypes : List (Nat × Nat)
  deriving DecidableEq, Repr

/-- A fresh `TypeFactory` with empty caches. -/
def TypeFactoryState.initial : TypeFactoryState :=
  { next := 0, listTypes := [], mapTypes := [], optionalTypes := [] }

/-- Lookup in an interning cache keyed by handle identity. -/
def assocFind {α : Type} [DecidableEq α] : List (α × Nat) → α → Option Nat
  | [], _ => none
  | (k, v) :: rest, key => if key = k then some v else assocFind rest key

/-- Modelled from the spec: `TypeFactory::CreateListType` — on a cache hit
return the interned handle unchanged; otherwise allocate a fresh handle,
record it in `list_types_` and return it. -/
def TypeFactory.CreateListType (s : TypeFactoryState) (element : Nat) :
    Nat × TypeFactoryState :=
  match assocFind s.listTypes element with
  | some h => (h, s)
  | none =>
    (s.next,
     { s with
       next := s.next + 1
       listTypes := (element, s.next) :: s.listTypes })

/-- Modelled from the spec: `TypeFactory::CreateMapType` — interning keyed by
the pair of key and value handles in `map_types_`. -/
def TypeFactory.CreateMapType (s : TypeFactoryState) (key value : Nat) :
    Nat × TypeFactoryState :=
  match assocFind s.mapTypes (key, value) with
  | some h => (h, s)
  | none =>
    (s.next,
     { s with
       next := s.next + 1
       mapTypes := ((key, value), s.next) :: s.mapTypes })

/-- Modelled from the spec: `TypeFactory::CreateOptionalType` — interning
keyed by the parameter handle in `optional_types_`. -/
def TypeFactory.CreateOptionalType (s : TypeFactoryState) (element : Nat) :
    Nat × TypeFactoryState :=
  match assocFind s.optionalTypes element with
  | some h => (h, s)
  | none =>
    (s.next,
     { s with
       next := s.next + 1
       optionalTypes := (element, s.next) :: s.optionalTypes })

/-- One call into the parameterized-type constructors of a factory. -/
inductive TypeFactoryOp where
  | listOp (element : Nat)
  | mapOp (key value : Nat)
  | optOp (element : Nat)
  deriving DecidableEq, Repr

/-- Apply one constructor call, yielding the returned handle and the
successor factory state. -/
def TypeFactory.applyOp (s : TypeFactoryState) :
    TypeFactoryOp → Nat × TypeFactoryState
  | TypeFactoryOp.listOp e => TypeFactory.CreateListType s e
  | TypeFactoryOp.mapOp k v => TypeFactory.CreateMapType s k v
  | TypeFactoryOp.optOp e => TypeFactory.CreateOptionalType s e

/-- `s'` is reachable from `s` by any sequence of parameterized-type
constructor calls on the same factory instance. -/
def TypeFactory.Reachable (s s' : TypeFactoryState) : Prop :=
  Relation.ReflTransGen
    (fun a b => ∃ op : TypeFactoryOp, (TypeFactory.applyOp a op).2 = b) s s'

/-- The six primitive kinds that have wrapper types
(`base/types/wrapper_type.h`). -/
inductive WrapperKind where
  | boolW
  | intW
  | uintW
  | doubleW
  | bytesW
  | stringW
  deriving DecidableEq, Repr

/-- CEL types as produced by the protobuf struct bridge
(`src/extensions/protobuf/struct_type.cc`), structurally. -/
inductive CelType where
  | boolT
  | intT
  | uintT
  | doubleT
  | bytesT
  | stringT
  | durationT
  | timestampT
  | dynT
  | nullT
  | anyT
  | wrapperT (w : WrapperKind)
  | listT (element : CelType)
  | mapT (key value : CelType)
  | structT (name : String)
  | enumT (name : String)
  deriving DecidableEq, Repr

/-- `true` exactly on wrapper types. -/
def CelType.isWrapper : CelType → Bool
  | CelType.wrapperT _ => true
  | _ => false

/-- `google::protobuf::FieldDescriptor::Type`, the declared wire type of a
protobuf field (the cases switched on in
`src/extensions/protobuf/struct_type.cc`, lines 68-108). -/
inductive ProtoFieldType where
  | tDouble
  | tFloat
  | tInt64
  | tUint64
  | tInt32
  | tFixed64
  | tFixed32
  | tBool
  | tString
  | tGroup
  | tMessage
  | tBytes
  | tUint32
  | tEnum
  | tSfixed32
  | tSfixed64
  | tSint32
  | tSint64
  deriving DecidableEq, Repr

/-- The part of a `FieldDescriptor` that `FieldDescriptorToTypeSingular`
reads: the declared type plus the full names of the message or enum type it
refers to. -/
structure SingularFieldDescriptor where
  ftype : ProtoFieldType
  messageTypeName : String := ""
  enumTypeName : String := ""
  deriving DecidableEq, Repr

/-- A protobuf `FieldDescriptor` as consumed by `FieldDescriptorToType`
(`src/extensions/protobuf/struct_type.cc`, lines 120-138): its own singular
shape, the `is_repeated` flag, and — when `is_map()` — the key and value
field descriptors of the synthetic map-entry message. -/
structure FieldDescriptor where
  singular : SingularFieldDescriptor
  isRepeated : Bool := false
  mapEntry : Option (SingularFieldDescriptor × SingularFieldDescriptor) := none
  deriving DecidableEq, Repr

/-- Modelled from the spec: `ProtoType::Resolve` for message types
(`extensions/protobuf/type.h`, not under `src/`), per spec section 4.7: the
well-known wrapper messages resolve to the wrapper kinds, `Duration` and
`Timestamp` to duration and timestamp, `Struct` to `map<string, dyn>`,
`Value` to `dyn`, `ListValue` to `list<dyn>`, `Any` to `any`, and every
other message to its struct type. -/
def resolveMessageType (name : String) : CelType :=
  if name = "google.protobuf.Duration" then CelType.durationT
  else if name = "google.protobuf.Timestamp" then CelType.timestampT
  else if name = "google.protobuf.BoolValue" then
    CelType.wrapperT WrapperKind.boolW
  else if name = "google.protobuf.Int32Value" ∨
          name = "google.protobuf.Int64Value" then
    CelType.wrapperT WrapperKind.intW
  else if name = "google.protobuf.UInt32Value" ∨
          name = "google.protobuf.UInt64Value" then
    CelType.wrapperT WrapperKind.uintW
  else if name = "google.protobuf.FloatValue" ∨
          name = "google.protobuf.DoubleValue" then
    CelType.wrapperT WrapperKind.doubleW
  else if name = "google.protobuf.BytesValue" then
    CelType.wrapperT WrapperKind.bytesW
  else if name = "google.protobuf.StringValue" then
    CelType.wrapperT WrapperKind.stringW
  else if name = "google.protobuf.Struct" then
    CelType.mapT CelType.stringT CelType.dynT
  else if name = "google.protobuf.Value" then CelType.dynT
  else if name = "google.protobuf.ListValue" then CelType.listT CelType.dynT
  else if name = "google.protobuf.Any" then CelType.anyT
  else CelType.structT name

/-- `FieldDescriptorToTypeSingular` (`src/extensions/protobuf/struct_type.cc`,
lines 68-108): scalar declared types map to the CEL primitive kinds; message
and group fields resolve their message type; enum fields resolve their enum
type. -/
def FieldDescriptorToTypeSingular (fd : SingularFieldDescriptor) : CelType :=
  match fd.ftype with
  | ProtoFieldType.tDouble => CelType.doubleT
  | ProtoFieldType.tFloat => CelType.doubleT
  | ProtoFieldType.tInt64 => CelType.intT
  | ProtoFieldType.tInt32 => CelType.intT
  | ProtoFieldType.tSfixed32 => CelType.intT
  | ProtoFieldType.tSfixed64 => CelType.intT
  | ProtoFieldType.tSint32 => CelType.intT
  | ProtoFieldType.tSint64 => CelType.intT
  | ProtoFieldType.tUint64 => CelType.uintT
  | ProtoFieldType.tFixed64 => CelType.uintT
  | ProtoFieldType.tFixed32 => CelType.uintT
  | ProtoFieldType.tUint32 => CelType.uintT
  | ProtoFieldType.tBool => CelType.boolT
  | ProtoFieldType.tString => CelType.stringT
  | ProtoFieldType.tGroup => resolveMessageType fd.messageTypeName
  | ProtoFieldType.tMessage => resolveMessageType fd.messageTypeName
  | ProtoFieldType.tBytes => CelType.bytesT
  | ProtoFieldType.tEnum => CelType.enumT fd.enumTypeName

/-- Modelled from the spec: `UnwrapType` (`base/types/wrapper_type.h`, not
under `src/`) — a wrapper type yields its wrapped primitive, every other
type is unchanged (spec section 4.7: "unwrapping wrapper types"). -/
def UnwrapType : CelType → CelType
  | CelType.wrapperT WrapperKind.boolW => CelType.boolT
  | CelType.wrapperT WrapperKind.intW => CelType.intT
  | CelType.wrapperT WrapperKind.uintW => CelType.uintT
  | CelType.wrapperT WrapperKind.doubleW => CelType.doubleT
  | CelType.wrapperT WrapperKind.bytesW => CelType.bytesT
  | CelType.wrapperT WrapperKind.stringW => CelType.stringT
  | t => t

/-- `FieldDescriptorToTypeRepeated` (`src/extensions/protobuf/struct_type.cc`,
lines 110-118): the list of the unwrapped singular element type. -/
def FieldDescriptorToTypeRepeated (fd : FieldDescriptor) : CelType :=
  CelType.listT (UnwrapType (FieldDescriptorToTypeSingular fd.singular))

/-- `FieldDescriptorToType` (`src/extensions/protobuf/struct_type.cc`, lines
120-138): map fields become maps of the key type and the unwrapped value
type; repeated fields defer to the repeated conversion; otherwise the
singular conversion. -/
def FieldDescriptorToType (fd : FieldDescriptor) : CelType :=
  match fd.mapEntry with
  | some (keyDesc, valueDesc) =>
    CelType.mapT (FieldDescriptorToTypeSingular keyDesc)
      (UnwrapType (FieldDescriptorToTypeSingular valueDesc))
  | none =>
    if fd.isRepeated then FieldDescriptorToTypeRepeated fd
    else FieldDescriptorToTypeSingular fd.singular

/-- A protobuf message descriptor as consulted by
`ProtoStructType::FindFieldByNumber`: its fields, listed with their numbers
and names.  Field numbers of real descriptors always fit in `int`. -/
structure ProtoDescriptor where
  fields : List (Int × String × FieldDescriptor)
  deriving DecidableEq, Repr

/-- `google::protobuf::Descriptor::FindFieldByNumber` over the modelled
descriptor. -/
def ProtoDescriptor.findFieldByNumber (d : ProtoDescriptor) (number : Int) :
    Option (String × FieldDescriptor) :=
  match d.fields.find? (fun f => f.1 = number) with
  | some f => some f.2
  | none => none

/-- A resolved struct-type field: `StructType::Field(id, name, number, type)`
(`src/extensions/protobuf/struct_type.cc`, lines 233-234). -/
structure StructTypeField where
  number : Int
  name : String
  fieldType : CelType
  deriving DecidableEq, Repr

/-- `ProtoStructType::FindFieldByNumber`
(`src/extensions/protobuf/struct_type.cc`, lines 218-235): a requested number
below `std::numeric_limits<int>::min()` or above
`std::numeric_limits<int>::max()` is treated as not found; otherwise the
descriptor is consulted and the found field's type converted. -/
def ProtoStructType.FindFieldByNumber (d : ProtoDescriptor) (number : Int) :
    Except CelError (Option StructTypeField) :=
  if number < -2147483648 ∨ number > 2147483647 then
    Except.ok none
  else
    match d.findFieldByNumber number with
    | none => Except.ok none
    | some (name, fd) =>
      Except.ok (some { number := number, name := name,
                        fieldType := FieldDescriptorToType fd })

/-- A byte is a UTF-8 continuation byte (`0x80`-`0xBF`). -/
def isCont (b : Nat) : Prop := 0x80 ≤ b ∧ b ≤ 0xBF

instance (b : Nat) : Decidable (isCont b) := by unfold isCont; infer_instance

/-- Acceptance range for the second byte of a three-byte sequence, by lead
byte: `0xE0` requires `0xA0`-`0xBF` (excluding overlong forms), `0xED`
requires `0x80`-`0x9F` (excluding surrogates), the rest a plain continuation
byte. -/
def accept3 (b0 b1 : Nat) : Prop :=
  if b0 = 0xE0 then 0xA0 ≤ b1 ∧ b1 ≤ 0xBF
  else if b0 = 0xED then 0x80 ≤ b1 ∧ b1 ≤ 0x9F
  else isCont b1

instance (b0 b1 : Nat) : Decidable (accept3 b0 b1) := by
  unfold accept3; infer_instance

/-- Acceptance range for the second byte of a four-byte sequence, by lead
byte: `0xF0` requires `0x90`-`0xBF` (excluding overlong forms), `0xF4`
requires `0x80`-`0x8F` (capping at `U+10FFFF`), the rest a plain
continuation byte. -/
def accept4 (b0 b1 : Nat) : Prop :=
  if b0 = 0xF0 then 0x90 ≤ b1 ∧ b1 ≤ 0xBF
  else if b0 = 0xF4 then 0x80 ≤ b1 ∧ b1 ≤ 0x8F
  else isCont b1

instance (b0 b1 : Nat) : Decidable (accept4 b0 b1) := by
  unfold accept4; infer_instance

/-- Modelled from the spec: `internal::Utf8CodePointCount`
(`internal/utf8.cc`, not under `src/`; its unit tests are at
`src/eval/eval/lazy_init_step_test.cc`, lines 244-263).  Decodes the byte
sequence front to back, counting one code point per decoded rune; a valid
sequence is consumed whole, while an invalid or truncated sequence consumes
one byte and counts one (replacement) — Go-style decoding, exactly as the
tests pin down (`"\xe2\x80"` counts 2, `"a\xe2\x80"` counts 3). -/
def utf8CodePointCount : List Nat → Nat
  | [] => 0
  | [_] => 1
  | [b0, b1] =>
    if b0 < 0x80 then 1 + utf8CodePointCount [b1]
    else if 0xC2 ≤ b0 ∧ b0 ≤ 0xDF then
      (if isCont b1 then 1 else 1 + utf8CodePointCount [b1])
    else 1 + utf8CodePointCount [b1]
  | [b0, b1, b2] =>
    if b0 < 0x80 then 1 + utf8CodePointCount [b1, b2]
    else if 0xC2 ≤ b0 ∧ b0 ≤ 0xDF then
      (if isCont b1 then 1 + utf8CodePointCount [b2]
       else 1 + utf8CodePointCount [b1, b2])
    else if 0xE0 ≤ b0 ∧ b0 ≤ 0xEF then
      (if accept3 b0 b1 ∧ isCont b2 then 1
       else 1 + utf8CodePointCount [b1, b2])
    else 1 + utf8CodePointCount [b1, b2]
  | b0 :: b1 :: b2 :: b3 :: rest =>
    if b0 < 0x80 then 1 + utf8CodePointCount (b1 :: b2 :: b3 :: rest)
    else if 0xC2 ≤ b0 ∧ b0 ≤ 0xDF then
      (if isCont b1 then 1 + utf8CodePointCount (b2 :: b3 :: rest)
       else 1 + utf8CodePointCount (b1 :: b2 :: b3 :: rest))
    else if 0xE0 ≤ b0 ∧ b0 ≤ 0xEF then
      (if accept3 b0 b1 ∧ isCont b2 then 1 + utf8CodePointCount (b3 :: rest)
       else 1 + utf8CodePointCount (b1 :: b2 :: b3 :: rest))
    else if 0xF0 ≤ b0 ∧ b0 ≤ 0xF4 then
      (if accept4 b0 b1 ∧ isCont b2 ∧ isCont b3 then
        1 + utf8CodePointCount rest
       else 1 + utf8CodePointCount (b1 :: b2 :: b3 :: rest))
    else 1 + utf8CodePointCount (b1 :: b2 :: b3 :: rest)

/-- `StringValue::Size` (`src/common/values/string_value.cc`, lines 101-105):
returns `internal::Utf8CodePointCount` of the underlying bytes. -/
def StringValue.Size (bytes : List Nat) : Nat := utf8CodePointCount bytes

/-- A Unicode scalar value: any code point except the surrogate range. -/
def IsScalar (c : Nat) : Prop :=
  c < 0x110000 ∧ ¬(0xD800 ≤ c ∧ c ≤ 0xDFFF)

/-- The UTF-8 encoding of a Unicode scalar value, by the defining
arithmetic. -/
def utf8Encode (c : Nat) : List Nat :=
  if c < 0x80 then [c]
  else if c < 0x800 then [0xC0 + c / 64, 0x80 + c % 64]
  else if c < 0x10000 then
    [0xE0 + c / 4096, 0x80 + (c / 64) % 64, 0x80 + c % 64]
  else
    [0xF0 + c / 262144, 0x80 + (c / 4096) % 64, 0x80 + (c / 64) % 64,
     0x80 + c % 64]

/-- `bytes` is the UTF-8 encoding of the sequence of Unicode scalar values
`cps`: the specification-side meaning of a valid UTF-8 string. -/
inductive Utf8EncodesList : List Nat → List Nat → Prop where
  | nil : Utf8EncodesList [] []
  | cons (c : Nat) (bs cs : List Nat) :
      IsScalar c → Utf8EncodesList bs cs →
      Utf8EncodesList (utf8Encode c ++ bs) (c :: cs)

/-- Number of decimal digits of a natural number, computed with structural
fuel so it evaluates inside the kernel (`0` has one digit). -/
def decDigitsAux : Nat → Nat → Nat
  | 0, _ => 1
  | fuel + 1, n => if n < 10 then 1 else decDigitsAux fuel (n / 10) + 1

/-- Number of decimal digits of a natural number. -/
def decDigits (n : Nat) : Nat := decDigitsAux n n

/-- Whether the positive fraction `n / d` is at least `10^k`. -/
def fracGeTenPow (n d : Nat) (k : Int) : Prop :=
  if 0 ≤ k then d * 10 ^ k.toNat ≤ n else d ≤ n * 10 ^ (-k).toNat

instance (n d : Nat) (k : Int) : Decidable (fracGeTenPow n d k) := by
  unfold fracGeTenPow; infer_instance

/-- The decimal exponent of the positive fraction `n / d`: the unique `X`
with `10^X ≤ n / d < 10^(X+1)`. -/
def decExp (n d : Nat) : Int :=
  let c : Int := (decDigits n : Int) - (decDigits d : Int)
  if fracGeTenPow n d c then c else c - 1

/-- Round the fraction `num / den` to the nearest natural, ties to even —
the rounding `printf` applies when trimming significant digits. -/
def roundHalfEvenFrac (num den : Nat) : Nat :=
  let q := num / den
  let r := num % den
  if den < 2 * r then q + 1
  else if 2 * r < den then q
  else if q % 2 = 0 then q else q + 1

/-- Drop trailing `'0'` characters. -/
def stripTrailingZeros (l : List Char) : List Char :=
  (l.reverse.dropWhile (fun c => c = '0')).reverse

/-- Render the positive fraction `n / d` the way `printf("%g")` with
precision 6 does (the formatting `absl::StrCat` applies to a `double`):
round to six significant digits, strip trailing zeros, and use scientific
notation when the decimal exponent is below `-4` or at least `6`, with a
sign and at least two digits in the exponent. -/
def sixDigitsPos (n d : Nat) : String :=
  let e0 := decExp n d
  let sig0 :=
    if 0 ≤ 5 - e0 then roundHalfEvenFrac (n * 10 ^ (5 - e0).toNat) d
    else roundHalfEvenFrac n (d * 10 ^ (e0 - 5).toNat)
  let sig := if sig0 ≥ 1000000 then 100000 else sig0
  let e := if sig0 ≥ 1000000 then e0 + 1 else e0
  let ds := stripTrailingZeros (Nat.toDigits 10 sig)
  if -4 ≤ e ∧ e < 6 then
    if 0 ≤ e then
      let intDigits := e.toNat + 1
      if ds.length ≤ intDigits then
        String.mk (ds ++ List.replicate (intDigits - ds.length) '0')
      else
        String.mk (ds.take intDigits ++ '.' :: ds.drop intDigits)
    else
      String.mk ('0' :: '.' :: (List.replicate ((-e).toNat - 1) '0' ++ ds))
  else
    let mant :=
      match ds with
      | [] => "0"
      | [c] => String.mk [c]
      | c :: tail => String.mk (c :: '.' :: tail)
    let eAbs := (if e < 0 then -e else e).toNat
    let eStr := if eAbs < 10 then "0" ++ toString eAbs else toString eAbs
    mant ++ "e" ++ (if e < 0 then "-" else "+") ++ eStr

/-- `absl::StrCat` applied to a finite `double` (the helper
`DoubleValue::DebugString` calls, `src/base/types/uint_type.h`, lines
529-545), on the exact value `num / den` of the double: zero renders as
`0`, negative values with a `-` sign, positive values with
six-significant-digit `%g` formatting. -/
def strCatDouble (num : Int) (den : Nat) : String :=
  if num = 0 then "0"
  else if num < 0 then "-" ++ sixDigitsPos num.natAbs den
  else sixDigitsPos num.toNat den

/-- An IEEE-754 binary64 as `DoubleValue` classifies it: NaN, the two
infinities, or a finite value.  A finite double is an exact rational; it is
carried as a fraction `num / den` with `den` positive. -/
inductive CppDouble where
  | nan
  | posInf
  | negInf
  | finite (num : Int) (den : Nat)
  deriving DecidableEq, Repr

/-- `DoubleValue::DebugString` (`src/base/types/uint_type.h`, lines 529-554):
finite values whose floor differs from themselves (`num / den` not an
integer, i.e. `num % den ≠ 0`) render via `absl::StrCat`; finite whole
values render via `absl::StrCat` with `".0"` appended only when the
rendering contains no `'.'`; NaN renders `"nan"`; the infinities render
`"-infinity"` and `"+infinity"` by sign bit. -/
def DoubleValue.DebugString (d : CppDouble) : String :=
  match d with
  | CppDouble.finite num den =>
    if num % (den : Int) ≠ 0 then strCatDouble num den
    else
      let stringified := strCatDouble num den
      if stringified.data.contains '.' then stringified
      else stringified ++ ".0"
  | CppDouble.nan => "nan"
  | CppDouble.negInf => "-infinity"
  | CppDouble.posInf => "+infinity"

/-- Unwrapping never yields a wrapper type. -/
theorem unwrapType_not_wrapper (t : CelType) :
    CelType.isWrapper (UnwrapType t) = false := by
  cases t with
  | wrapperT w => cases w <;> rfl
  | _ => rfl

/-- A cache binding survives consing a new binding for a key that was not
in the cache. -/
theorem assocFind_cons_preserve {α : Type} [DecidableEq α]
    (l : List (α × Nat)) (k k' : α) (v h : Nat)
    (hk' : assocFind l k' = none) (hh : assocFind l k = some h) :
    assocFind ((k', v) :: l) k = some h := by
  unfold assocFind
  by_cases he : k = k'
  · subst he
    rw [hh] at hk'
    exact Option.noConfusion hk'
  · rw [if_neg he]
    exact hh

/-- Every factory operation preserves all existing bindings of the three
interning caches. -/
theorem applyOp_preserves_caches (s : TypeFactoryState) (op : TypeFactoryOp) :
    (∀ e h, assocFind s.listTypes e = some h →
      assocFind ((TypeFactory.applyOp s op).2).listTypes e = some h) ∧
    (∀ kv h, assocFind s.mapTypes kv = some h →
      assocFind ((TypeFactory.applyOp s op).2).mapTypes kv = some h) ∧
    (∀ e h, assocFind s.optionalTypes e = some h →
      assocFind ((TypeFactory.applyOp s op).2).optionalTypes e = some h) := by
  cases op with
  | listOp e' =>
    unfold TypeFactory.applyOp TypeFactory.CreateListType
    cases hl : assocFind s.listTypes e' with
    | some v =>
      simp only [hl]
      exact ⟨fun _ _ hh => hh, fun _ _ hh => hh, fun _ _ hh => hh⟩
    | none =>
      simp only [hl]
      exact ⟨fun e h hh => assocFind_cons_preserve _ e e' s.next h hl hh,
             fun _ _ hh => hh, fun _ _ hh => hh⟩
  | mapOp k' v' =>
    unfold TypeFactory.applyOp TypeFactory.CreateMapType
    cases hl : assocFind s.mapTypes (k', v') with
    | some v =>
      simp only [hl]
      exact ⟨fun _ _ hh => hh, fun _ _ hh => hh, fun _ _ hh => hh⟩
    | none =>
      simp only [hl]
      exact ⟨fun _ _ hh => hh,
             fun kv h hh =>
               assocFind_cons_preserve _ kv (k', v') s.next h hl hh,
             fun _ _ hh => hh⟩
  | optOp e' =>
    unfold TypeFactory.applyOp TypeFactory.CreateOptionalType
    cases hl : assocFind s.optionalTypes e' with
    | some v =>
      simp only [hl]
      exact ⟨fun _ _ hh => hh, fun _ _ hh => hh, fun _ _ hh => hh⟩
    | none =>
      simp only [hl]
      exact ⟨fun _ _ hh => hh, fun _ _ hh => hh,
             fun e h hh => assocFind_cons_preserve _ e e' s.next h hl hh⟩

/-- Cache bindings survive any sequence of factory operations. -/
theorem reachable_preserves_caches (s s' : TypeFactoryState)
    (hr : TypeFactory.Reachable s s') :
    (∀ e h, assocFind s.listTypes e = some h →
      assocFind s'.listTypes e = some h) ∧
    (∀ kv h, assocFind s.mapTypes kv = some h →
      assocFind s'.mapTypes kv = some h) ∧
    (∀ e h, assocFind s.optionalTypes e = some h →
      assocFind s'.optionalTypes e = some h) := by
  induction hr with
  | refl => exact ⟨fun _ _ hh => hh, fun _ _ hh => hh, fun _ _ hh => hh⟩
  | tail _ hstep ih =>
    obtain ⟨op, hop⟩ := hstep
    subst hop
    obtain ⟨ihl, ihm, iho⟩ := ih
    obtain ⟨pl, pm, po⟩ := applyOp_preserves_caches _ op
    exact ⟨fun e h hh => pl e h (ihl e h hh),
           fun kv h hh => pm kv h (ihm kv h hh),
           fun e h hh => po e h (iho e h hh)⟩

/-- A parameterized-type construction leaves its own key bound to the handle
it returned. -/
theorem createListType_binds (s : TypeFactoryState) (e : Nat) :
    assocFind (TypeFactory.CreateListType s e).2.listTypes e =
      some (TypeFactory.CreateListType s e).1 := by
  unfold TypeFactory.CreateListType
  cases h : assocFind s.listTypes e with
  | some v => simp only [h]
  | none => simp [h, assocFind]

/-- The map analogue of `createListType_binds`. -/
theorem createMapType_binds (s : TypeFactoryState) (k v : Nat) :
    assocFind (TypeFactory.CreateMapType s k v).2.mapTypes (k, v) =
      some (TypeFactory.CreateMapType s k v).1 := by
  unfold TypeFactory.CreateMapType
  cases h : assocFind s.mapTypes (k, v) with
  | some w => simp only [h]
  | none => simp [h, assocFind]

/-- The optional analogue of `createListType_binds`. -/
theorem createOptionalType_binds (s : TypeFactoryState) (e : Nat) :
    assocFind (TypeFactory.CreateOptionalType s e).2.optionalTypes e =
      some (TypeFactory.CreateOptionalType s e).1 := by
  unfold TypeFactory.CreateOptionalType
  cases h : assocFind s.optionalTypes e with
  | some v => simp only [h]
  | none => simp [h, assocFind]

/-- Claim C4: parameterized types are interned per factory instance.  After
`CreateListType`, `CreateMapType` or `CreateOptionalType` returns a handle
for given argument handles, any later call on the same factory — however
many other parameterized-type constructions happened in between — with
equal argument handles returns the very same interned handle and leaves the
factory unchanged, so handle identity decides equality of parameterized
types. -/
theorem C4_parameterized_types_interned (s : TypeFactoryState) :
    (∀ e h s₁ s₂, TypeFactory.CreateListType s e = (h, s₁) →
      TypeFactory.Reachable s₁ s₂ →
      TypeFactory.CreateListType s₂ e = (h, s₂)) ∧
    (∀ k v h s₁ s₂, TypeFactory.CreateMapType s k v = (h, s₁) →
      TypeFactory.Reachable s₁ s₂ →
      TypeFactory.CreateMapType s₂ k v = (h, s₂)) ∧
    (∀ e h s₁ s₂, TypeFactory.CreateOptionalType s e = (h, s₁) →
      TypeFactory.Reachable s₁ s₂ →
      TypeFactory.CreateOptionalType s₂ e = (h, s₂)) := by
  refine ⟨?_, ?_, ?_⟩
  · intro e h s₁ s₂ hcall hreach
    have hbound : assocFind s₁.listTypes e = some h := by
      have hb := createListType_binds s e
      rw [hcall] at hb
      exact hb
    have hbound₂ := (reachable_preserves_caches s₁ s₂ hreach).1 e h hbound
    unfold TypeFactory.CreateListType
    simp only [hbound₂]
  · intro k v h s₁ s₂ hcall hreach
    have hbound : assocFind s₁.mapTypes (k, v) = some h := by
      have hb := createMapType_binds s k v
      rw [hcall] at hb
      exact hb
    have hbound₂ := (reachable_preserves_caches s₁ s₂ hreach).2.1 (k, v) h hbound
    unfold TypeFactory.CreateMapType
    simp only [hbound₂]
  · intro e h s₁ s₂ hcall hreach
    have hbound : assocFind s₁.optionalTypes e = some h := by
      have hb := createOptionalType_binds s e
      rw [hcall] at hb
      exact hb
    have hbound₂ := (reachable_preserves_caches s₁ s₂ hreach).2.2 e h hbound
    unfold TypeFactory.CreateOptionalType
    simp only [hbound₂]

/-- Claim C4, witness: on a fresh factory, create `list<7>`, then intern an
unrelated `map<1,2>`, then ask for `list<7>` again: the same handle comes
back and the factory is unchanged. -/
theorem C4_parameterized_types_interned_witness :
    TypeFactory.CreateListType
        (TypeFactory.CreateMapType
          (TypeFactory.CreateListType TypeFactoryState.initial 7).2 1 2).2 7 =
      ((TypeFactory.CreateListType TypeFactoryState.initial 7).1,
       (TypeFactory.CreateMapType
         (TypeFactory.CreateListType TypeFactoryState.initial 7).2 1 2).2) :=
  (C4_parameterized_types_interned TypeFactoryState.initial).1 7
    (TypeFactory.CreateListType TypeFactoryState.initial 7).1
    (TypeFactory.CreateListType TypeFactoryState.initial 7).2
    (TypeFactory.CreateMapType
      (TypeFactory.CreateListType TypeFactoryState.initial 7).2 1 2).2
    rfl
    (Relation.ReflTransGen.single ⟨TypeFactoryOp.mapOp 1 2, rfl⟩)

/-- Claim C7: every bridged map field's value type and every bridged
repeated field's element type goes through `UnwrapType`, so neither is ever
a nullable wrapper type. -/
theorem C7_bridged_container_types (fd : FieldDescriptor) :
    (∀ kDesc vDesc, fd.mapEntry = some (kDesc, vDesc) →
      ∃ kt vt, FieldDescriptorToType fd = CelType.mapT kt vt ∧
        vt.isWrapper = false) ∧
    (fd.mapEntry = none → fd.isRepeated = true →
      ∃ et, FieldDescriptorToType fd = CelType.listT et ∧
        et.isWrapper = false) := by
  constructor
  · intro kDesc vDesc hmap
    refine ⟨FieldDescriptorToTypeSingular kDesc,
      UnwrapType (FieldDescriptorToTypeSingular vDesc), ?_,
      unwrapType_not_wrapper _⟩
    unfold FieldDescriptorToType
    rw [hmap]
  · intro hnone hrep
    refine ⟨UnwrapType (FieldDescriptorToTypeSingular fd.singular), ?_,
      unwrapType_not_wrapper _⟩
    simp [FieldDescriptorToType, hnone, hrep, FieldDescriptorToTypeRepeated]

/-- Claim C7, witness: a repeated `google.protobuf.Int32Value` field bridges
to a list whose element type is not a wrapper, and a
`map<string, google.protobuf.BoolValue>` field bridges to a map whose value
type is not a wrapper. -/
theorem C7_bridged_container_types_witness :
    (∃ et, FieldDescriptorToType
        { singular :=
            { ftype := ProtoFieldType.tMessage,
              messageTypeName := "google.protobuf.Int32Value" },
          isRepeated := true } =
      CelType.listT et ∧ et.isWrapper = false) ∧
    (∃ kt vt, FieldDescriptorToType
        { singular :=
            { ftype := ProtoFieldType.tMessage,
              messageTypeName := "test.MapEntry" },
          isRepeated := true,
          mapEntry := some
            ({ ftype := ProtoFieldType.tString },
             { ftype := ProtoFieldType.tMessage,
               messageTypeName := "google.protobuf.BoolValue" }) } =
      CelType.mapT kt vt ∧ vt.isWrapper = false) :=
  ⟨(C7_bridged_container_types
      { singular :=
          { ftype := ProtoFieldType.tMessage,
            messageTypeName := "google.protobuf.Int32Value" },
        isRepeated := true }).2 rfl rfl,
   (C7_bridged_container_types
      { singular :=
          { ftype := ProtoFieldType.tMessage,
            messageTypeName := "test.MapEntry" },
        isRepeated := true,
        mapEntry := some
          ({ ftype := ProtoFieldType.tString },
           { ftype := ProtoFieldType.tMessage,
             messageTypeName := "google.protobuf.BoolValue" }) }).1 _ _ rfl⟩

/-- Claim C1, counterexample: `CelValue::CreateDuration` accepts the
duration one nanosecond beyond +315,576,000,000 seconds (the claim says it
is rejected), and the error returned at the bound it does reject carries
code invalid argument, not out of range. -/
theorem C1_counterexample :
    CelValue.CreateDuration (315576000000 * 1000000000 + 1) =
      CelValue.durationV (315576000000 * 1000000000 + 1) ∧
    CelValue.CreateDuration (315576000001 * 1000000000) =
      CelValue.errorV DurationOverflowError ∧
    DurationOverflowError.code = StatusCode.invalidArgument ∧
    StatusCode.invalidArgument ≠ StatusCode.outOfRange := by
  refine ⟨by decide, by decide, rfl, by decide⟩

/-- Claim C1, amended: `CelValue::CreateDuration` accepts every duration
strictly between the exclusive bounds of ±315,576,000,001 seconds (hence
also every duration up to 315,576,000,000 seconds plus 999,999,999
nanoseconds in magnitude), and rejects every duration at or beyond those
exclusive bounds with an error value whose code is invalid argument and
whose message is "Duration is out of range". -/
theorem C1_duration_bounds (ns : Int) :
    (kDurationLowNs < ns ∧ ns < kDurationHighNs →
      CelValue.CreateDuration ns = CelValue.durationV ns) ∧
    (ns ≥ kDurationHighNs ∨ ns ≤ kDurationLowNs →
      CelValue.CreateDuration ns =
        CelValue.errorV
          { code := StatusCode.invalidArgument,
            message := "Duration is out of range" }) := by
  unfold CelValue.CreateDuration
  constructor
  · intro h
    have hno : ¬(ns ≥ kDurationHighNs ∨ ns ≤ kDurationLowNs) := by
      push_neg
      exact ⟨h.2, h.1⟩
    rw [if_neg hno]
  · intro h
    rw [if_pos h]
    rfl

/-- Claim C1, witness: an in-range duration is accepted and the exclusive
upper bound is rejected. -/
theorem C1_duration_bounds_witness :
    CelValue.CreateDuration 42 = CelValue.durationV 42 ∧
    CelValue.CreateDuration kDurationHighNs =
      CelValue.errorV
        { code := StatusCode.invalidArgument,
          message := "Duration is out of range" } :=
  ⟨(C1_duration_bounds 42).1 (by decide),
   (C1_duration_bounds kDurationHighNs).2 (Or.inl (by decide))⟩

/-- Claim C2, counterexample: `StringValue::Equal` against an error operand
and `LegacyMapValue::Equal` against an unknown operand both return the
boolean value false — not the error/unknown operand itself. -/
theorem C2_counterexample :
    StringValue.Equal [0x61]
        (ValueVariant.errorV
          { code := StatusCode.internal, message := "boom" }) =
      ValueVariant.boolV false ∧
    LegacyMapValue.Equal [] ValueVariant.unknownV = ValueVariant.boolV false ∧
    ValueVariant.boolV false ≠
      ValueVariant.errorV { code := StatusCode.internal, message := "boom" } ∧
    ValueVariant.boolV false ≠ ValueVariant.unknownV := by
  refine ⟨rfl, rfl, by decide, by decide⟩

/-- Claim C2, amended: `StringValue::Equal` and `LegacyMapValue::Equal`
return the boolean value false whenever the other operand is of any
non-matching kind — error and unknown operands included; the error/unknown
is not returned. -/
theorem C2_equal_other_kind (s : List Nat)
    (m : List (List Nat × List Nat)) (other : ValueVariant)
    (hs : ∀ t, other ≠ ValueVariant.stringV t)
    (hm : ∀ e, other ≠ ValueVariant.mapV e) :
    StringValue.Equal s other = ValueVariant.boolV false ∧
    LegacyMapValue.Equal m other = ValueVariant.boolV false := by
  cases other
  case stringV t => exact absurd rfl (hs t)
  case mapV e => exact absurd rfl (hm e)
  all_goals exact ⟨rfl, rfl⟩

/-- Claim C2, witness: both `Equal` implementations applied to an error
operand return the boolean false. -/
theorem C2_equal_other_kind_witness :
    StringValue.Equal [0x62]
        (ValueVariant.errorV
          { code := StatusCode.unavailable, message := "u" }) =
      ValueVariant.boolV false ∧
    LegacyMapValue.Equal []
        (ValueVariant.errorV
          { code := StatusCode.unavailable, message := "u" }) =
      ValueVariant.boolV false :=
  C2_equal_other_kind [0x62] []
    (ValueVariant.errorV { code := StatusCode.unavailable, message := "u" })
    (fun _ h => ValueVariant.noConfusion h)
    (fun _ h => ValueVariant.noConfusion h)

/-- Claim C3: evaluation of the pipe loop.  The `check` command — although
listed in the loop's own protocol comment and implemented by the conformance
service — has no dispatch branch, so it falls through to the
unknown-command arm and the loop exits with code 2 and no response line; the
other three commands each produce one response line, an empty command exits
0, and startup failure exits 1. -/
theorem C3_pipe_loop_behaviour :
    RunServer true ["check", ""] = ([], 2) ∧
    RunServer true ["parse", "", "eval", "", "ping", "", ""] =
      ([PipeResponse.parseResp, PipeResponse.evalResp,
        PipeResponse.pingResp], 0) ∧
    RunServer true [] = ([], 0) ∧
    RunServer false [] = ([], 1) := by
  refine ⟨by decide, by decide, by decide, by decide⟩

/-- Claim C8, counterexample: converting an `Any` whose type URL is not
recognized yields status code not found, not unimplemented. -/
theorem C8_counterexample :
    anyToJsonStatusCode "type.googleapis.com/message.that.does.not.Exist" =
      StatusCode.notFound ∧
    StatusCode.notFound ≠ StatusCode.unimplemented := by
  refine ⟨by decide, by decide⟩

/-- Claim C8, amended: converting an `Any` whose type URL is one of the
recognized well-known types currently returns unimplemented, while a type
URL that is not recognized returns not found. -/
theorem C8_any_type_url_codes (url : String) :
    (url ∈ anyToJsonWellKnownUrls →
      anyToJsonStatusCode url = StatusCode.unimplemented) ∧
    (url ∉ anyToJsonWellKnownUrls →
      anyToJsonStatusCode url = StatusCode.notFound) := by
  unfold anyToJsonStatusCode
  constructor
  · intro h
    rw [if_pos h]
  · intro h
    rw [if_neg h]

/-- Claim C8, witness: a recognized well-known type URL yields
unimplemented and an unrecognized one yields not found. -/
theorem C8_any_type_url_codes_witness :
    anyToJsonStatusCode "type.googleapis.com/google.protobuf.Duration" =
      StatusCode.unimplemented ∧
    anyToJsonStatusCode "type.googleapis.com/no.such.Message" =
      StatusCode.notFound :=
  ⟨(C8_any_type_url_codes "type.googleapis.com/google.protobuf.Duration").1
      (by decide),
   (C8_any_type_url_codes "type.googleapis.com/no.such.Message").2
      (by decide)⟩

/-- Claim C9: `ProtoStructType::FindFieldByNumber` answers every request
whose number lies outside the 32-bit signed integer range with success and
absent (`ok none`) — not with an error status — for every descriptor. -/
theorem C9_find_field_by_number_out_of_range (d : ProtoDescriptor)
    (number : Int)
    (h : number < -2147483648 ∨ number > 2147483647) :
    ProtoStructType.FindFieldByNumber d number = Except.ok none := by
  unfold ProtoStructType.FindFieldByNumber
  rw [if_pos h]

/-- Claim C9, witness: a descriptor that does have a field, queried at
`2^31`, still answers absent rather than an error. -/
theorem C9_find_field_by_number_witness :
    ProtoStructType.FindFieldByNumber
        { fields := [(1, "single_bool",
            { singular := { ftype := ProtoFieldType.tBool } })] }
        2147483648 =
      Except.ok none :=
  C9_find_field_by_number_out_of_range
    { fields := [(1, "single_bool",
        { singular := { ftype := ProtoFieldType.tBool } })] }
    2147483648 (Or.inr (by decide))

/-- An ASCII byte is decoded alone, whatever follows. -/
theorem count_ascii (b0 : Nat) (rest : List Nat) (h0 : b0 < 0x80) :
    utf8CodePointCount (b0 :: rest) = 1 + utf8CodePointCount rest := by
  match rest with
  | [] => simp [utf8CodePointCount]
  | [b1] => simp [utf8CodePointCount, h0]
  | [b1, b2] => simp [utf8CodePointCount, h0]
  | b1 :: b2 :: b3 :: r => simp [utf8CodePointCount, h0]

/-- A valid two-byte sequence is consumed whole and counts one. -/
theorem count_two (b0 b1 : Nat) (rest : List Nat)
    (h0 : ¬ b0 < 0x80) (h2 : 0xC2 ≤ b0 ∧ b0 ≤ 0xDF) (hc : isCont b1) :
    utf8CodePointCount (b0 :: b1 :: rest) = 1 + utf8CodePointCount rest := by
  match rest with
  | [] => simp [utf8CodePointCount, h0, h2, hc]
  | [b2] => simp [utf8CodePointCount, h0, h2, hc]
  | b2 :: b3 :: r => simp [utf8CodePointCount, h0, h2, hc]

/-- A valid three-byte sequence is consumed whole and counts one. -/
theorem count_three (b0 b1 b2 : Nat) (rest : List Nat)
    (h0 : ¬ b0 < 0x80) (hn2 : ¬(0xC2 ≤ b0 ∧ b0 ≤ 0xDF))
    (h3 : 0xE0 ≤ b0 ∧ b0 ≤ 0xEF) (ha : accept3 b0 b1) (hc : isCont b2) :
    utf8CodePointCount (b0 :: b1 :: b2 :: rest) =
      1 + utf8CodePointCount rest := by
  match rest with
  | [] => simp [utf8CodePointCount, h0, hn2, h3, ha, hc]
  | b3 :: r => simp [utf8CodePointCount, h0, hn2, h3, ha, hc]

/-- A valid four-byte sequence is consumed whole and counts one. -/
theorem count_four (b0 b1 b2 b3 : Nat) (rest : List Nat)
    (h0 : ¬ b0 < 0x80) (hn2 : ¬(0xC2 ≤ b0 ∧ b0 ≤ 0xDF))
    (hn3 : ¬(0xE0 ≤ b0 ∧ b0 ≤ 0xEF))
    (h4 : 0xF0 ≤ b0 ∧ b0 ≤ 0xF4) (ha : accept4 b0 b1)
    (hc2 : isCont b2) (hc3 : isCont b3) :
    utf8CodePointCount (b0 :: b1 :: b2 :: b3 :: rest) =
      1 + utf8CodePointCount rest := by
  simp [utf8CodePointCount, h0, hn2, hn3, h4, ha, hc2, hc3]

/-- The decoder consumes the encoding of one scalar value whole: prepending
`utf8Encode c` to any byte sequence adds exactly one to the count. -/
theorem utf8Count_encode (c : Nat) (hc : IsScalar c) (rest : List Nat) :
    utf8CodePointCount (utf8Encode c ++ rest) =
      1 + utf8CodePointCount rest := by
  obtain ⟨hlt, hsurr⟩ := hc
  by_cases h1 : c < 0x80
  · have e1 : utf8Encode c = [c] := by simp [utf8Encode, h1]
    rw [e1]
    exact count_ascii c rest h1
  · by_cases h2 : c < 0x800
    · have e1 : utf8Encode c = [0xC0 + c / 64, 0x80 + c % 64] := by
        simp [utf8Encode, h1, h2]
      rw [e1]
      refine count_two _ _ rest (by omega) (by omega) ?_
      unfold isCont
      omega
    · by_cases h3 : c < 0x10000
      · have e1 : utf8Encode c =
            [0xE0 + c / 4096, 0x80 + (c / 64) % 64, 0x80 + c % 64] := by
          simp [utf8Encode, h1, h2, h3]
        rw [e1]
        refine count_three _ _ _ rest (by omega) (by omega) (by omega) ?_ ?_
        · unfold accept3 isCont
          by_cases h13 : (0xE0 + c / 4096 : Nat) = 0xE0
          · rw [if_pos h13]
            omega
          · rw [if_neg h13]
            by_cases h14 : (0xE0 + c / 4096 : Nat) = 0xED
            · rw [if_pos h14]
              omega
            · rw [if_neg h14]
              omega
        · unfold isCont
          omega
      · have e1 : utf8Encode c =
            [0xF0 + c / 262144, 0x80 + (c / 4096) % 64,
             0x80 + (c / 64) % 64, 0x80 + c % 64] := by
          simp [utf8Encode, h1, h2, h3]
        rw [e1]
        refine count_four _ _ _ _ rest (by omega) (by omega) (by omega)
          (by omega) ?_ ?_ ?_
        · unfold accept4 isCont
          by_cases h15 : (0xF0 + c / 262144 : Nat) = 0xF0
          · rw [if_pos h15]
            omega
          · rw [if_neg h15]
            by_cases h16 : (0xF0 + c / 262144 : Nat) = 0xF4
            · rw [if_pos h16]
              omega
            · rw [if_neg h16]
              omega
        · unfold isCont
          omega
        · unfold isCont
          omega

/-- The modelled decoder reproduces every vector of the `Utf8CodePointCount`
unit test (`src/eval/eval/lazy_init_step_test.cc`, lines 244-251). -/
theorem utf8CodePointCount_unit_tests :
    utf8CodePointCount [0x61, 0x62, 0x63, 0x64] = 4 ∧
    utf8CodePointCount [0x31, 0x2C, 0x32, 0x2C, 0x33, 0x2C, 0x34] = 7 ∧
    utf8CodePointCount
      [0xE2, 0x98, 0xBA, 0xE2, 0x98, 0xBB, 0xE2, 0x98, 0xB9] = 3 ∧
    utf8CodePointCount [0xE2, 0x00] = 2 ∧
    utf8CodePointCount [0xE2, 0x80] = 2 ∧
    utf8CodePointCount [0x61, 0xE2, 0x80] = 3 := by
  refine ⟨by decide, by decide, by decide, by decide, by decide, by decide⟩

/-- Claim C5: for every string value whose bytes are the UTF-8 encoding of a
sequence of Unicode scalar values, `StringValue::Size` returns the number of
code points of that sequence — not the number of bytes. -/
theorem C5_string_size_counts_code_points (bytes cps : List Nat)
    (h : Utf8EncodesList bytes cps) :
    StringValue.Size bytes = cps.length := by
  induction h with
  | nil => rfl
  | cons c bs cs hsc _ ih =>
    unfold StringValue.Size at ih ⊢
    rw [utf8Count_encode c hsc bs, ih]
    simp [Nat.add_comm]

/-- Claim C5, witness: the 6-byte UTF-8 string `"héllo"` has 5 code points,
and its size is 5, not its byte count 6. -/
theorem C5_string_size_witness :
    StringValue.Size [0x68, 0xC3, 0xA9, 0x6C, 0x6C, 0x6F] = 5 ∧
    ([0x68, 0xC3, 0xA9, 0x6C, 0x6C, 0x6F] : List Nat).length = 6 ∧
    (5 : Nat) ≠ 6 := by
  have h0 : Utf8EncodesList [] [] := Utf8EncodesList.nil
  have h1 : Utf8EncodesList [0x6F] [0x6F] :=
    Utf8EncodesList.cons 0x6F [] [] ⟨by decide, by decide⟩ h0
  have h2 : Utf8EncodesList [0x6C, 0x6F] [0x6C, 0x6F] :=
    Utf8EncodesList.cons 0x6C [0x6F] [0x6F] ⟨by decide, by decide⟩ h1
  have h3 : Utf8EncodesList [0x6C, 0x6C, 0x6F] [0x6C, 0x6C, 0x6F] :=
    Utf8EncodesList.cons 0x6C [0x6C, 0x6F] [0x6C, 0x6F]
      ⟨by decide, by decide⟩ h2
  have h4 : Utf8EncodesList [0xC3, 0xA9, 0x6C, 0x6C, 0x6F]
      [0xE9, 0x6C, 0x6C, 0x6F] :=
    Utf8EncodesList.cons 0xE9 [0x6C, 0x6C, 0x6F] [0x6C, 0x6C, 0x6F]
      ⟨by decide, by decide⟩ h3
  have h5 : Utf8EncodesList [0x68, 0xC3, 0xA9, 0x6C, 0x6C, 0x6F]
      [0x68, 0xE9, 0x6C, 0x6C, 0x6F] :=
    Utf8EncodesList.cons 0x68 [0xC3, 0xA9, 0x6C, 0x6C, 0x6F]
      [0xE9, 0x6C, 0x6C, 0x6F] ⟨by decide, by decide⟩ h4
  exact ⟨(C5_string_size_counts_code_points _ _ h5).trans (by decide),
    by decide, by decide⟩

/-- Claim C6, counterexample: `DebugString` of the whole finite double
`123456789.0` is `"1.23457e+08"` — the six-significant-digit `absl::StrCat`
rendering, which is not its shortest round-trip decimal rendering with
`".0"` appended (`"123456789.0"`). -/
theorem C6_counterexample :
    DoubleValue.DebugString (CppDouble.finite 123456789 1) = "1.23457e+08" ∧
    (123456789 : Int) % ((1 : Nat) : Int) = 0 ∧
    "1.23457e+08" ≠ "123456789.0" := by
  refine ⟨by decide, by decide, by decide⟩

/-- Claim C6, amended: `DebugString` renders NaN as `"nan"` and the
infinities as `"+infinity"`/`"-infinity"`; a finite double renders through
`absl::StrCat`'s six-significant-digit formatting, and when its fractional
part is zero, `".0"` is appended only when that rendering contains no
decimal point. -/
theorem C6_debug_string_rendering (num : Int) (den : Nat) (_hden : 0 < den) :
    DoubleValue.DebugString CppDouble.nan = "nan" ∧
    DoubleValue.DebugString CppDouble.posInf = "+infinity" ∧
    DoubleValue.DebugString CppDouble.negInf = "-infinity" ∧
    (num % (den : Int) = 0 →
      DoubleValue.DebugString (CppDouble.finite num den) =
        (if (strCatDouble num den).data.contains '.' then strCatDouble num den
         else strCatDouble num den ++ ".0")) ∧
    (num % (den : Int) ≠ 0 →
      DoubleValue.DebugString (CppDouble.finite num den) =
        strCatDouble num den) := by
  refine ⟨rfl, rfl, rfl, ?_, ?_⟩
  · intro h
    simp only [DoubleValue.DebugString]
    rw [if_neg (not_not_intro h)]
  · intro h
    simp only [DoubleValue.DebugString]
    rw [if_pos h]

/-- Claim C6, witness: the whole double `1.0` renders as `"1.0"` (dot
appended to the dot-free rendering `"1"`) and the non-whole double `1.5`
renders as `"1.5"`. -/
theorem C6_debug_string_rendering_witness :
    DoubleValue.DebugString (CppDouble.finite 1 1) = "1.0" ∧
    DoubleValue.DebugString (CppDouble.finite 3 2) = "1.5" :=
  ⟨((C6_debug_string_rendering 1 1 (by decide)).2.2.2.1
      (by decide)).trans (by decide),
   ((C6_debug_string_rendering 3 2 (by decide)).2.2.2.2
      (by decide)).trans (by decide)⟩

/-- Claim C10: moving out of a `Value` (move construction or move
assignment) hands the source's alternative to the target and always resets
the moved-from object to the `absl::monostate` alternative, which is the
invalid state; and `kind()` on an invalid `Value` returns
`ValueKind::kError` in optimized builds. -/
theorem C10_move_resets_to_invalid (v target : ValueVariant) :
    Value.moveConstruct v = (v, ValueVariant.monostate) ∧
    Value.moveAssign target v = (v, ValueVariant.monostate) ∧
    Value.IsValid (Value.moveConstruct v).2 = false ∧
    Value.IsValid (Value.moveAssign target v).2 = false ∧
    Value.kind ValueVariant.monostate = ValueKind.kError := by
  exact ⟨rfl, rfl, rfl, rfl, rfl⟩

end CelCpp
